import Mathlib

/-
Verification of the clac layered-configuration library (src/clac/core.py)
against its natural-language specification.

The embedding models the concrete layer implementation shipped with the
core (DictLayer, with its Flat and Split dot-strategies) and the CLAC
registry operations.  Python values reachable through a configuration
dict are modelled by the inductive type Value; Python exceptions that the
code raises or catches are modelled by PyErr, together with the predicate
PyErr.isLookupError mirroring membership in Python's LookupError class
hierarchy (NoConfigKey and MissingLayer subclass LookupError in
src/clac/exceptions.py; KeyError is a builtin LookupError; TypeError and
ValueError are not; ImmutableLayer is its own non-lookup error).

Registries are ordered lists of layers: CLAC._lookup is a Python dict
keyed by layer name, and Python dicts preserve insertion order, with
assignment to an existing key keeping its original position.  The
embedding's addLayer reproduces exactly that insert-or-replace-in-place
semantics.

Fallible operations return Except PyErr.  Mutating methods return the
updated structure explicitly.  The attribute-deletion lines in
BaseConfigLayer.__init__ are not modelled; the observable mutability
guards (assert_mutable, and CLAC checking layer.mutable before any
write) are.
-/

/-- Embedding of the DictStructure enum (core.py lines 31-33). -/
inductive DictStructure where
  | Split : DictStructure
  | Flat : DictStructure
deriving DecidableEq, Repr

mutual
/-- Python values reachable inside a configuration dict: None, strings,
integers, and nested dicts (ordered association lists, as Python dicts
preserve insertion order). -/
inductive Value where
  | pyNone : Value
  | str : String → Value
  | int : Int → Value
  | dict : ValueEntries → Value

/-- Entries of a Python dict with string keys, in insertion order. -/
inductive ValueEntries where
  | nil : ValueEntries
  | cons : String → Value → ValueEntries → ValueEntries
end

/-- Python exceptions raised or caught by the clac core. -/
inductive PyErr where
  | keyError : String → PyErr
  | noConfigKey : String → PyErr
  | missingLayer : String → PyErr
  | immutableLayer : String → PyErr
  | valueError : String → PyErr
  | typeError : String → PyErr
deriving DecidableEq, Repr

/-- Whether the exception is an instance of Python's LookupError.
KeyError is a builtin LookupError; NoConfigKey and MissingLayer are
declared as LookupError subclasses in src/clac/exceptions.py. -/
def PyErr.isLookupError : PyErr → Bool
  | PyErr.keyError _ => true
  | PyErr.noConfigKey _ => true
  | PyErr.missingLayer _ => true
  | PyErr.immutableLayer _ => false
  | PyErr.valueError _ => false
  | PyErr.typeError _ => false

/-- Python dict lookup entries[k]: first entry with the given key. -/
def ValueEntries.get : ValueEntries → String → Option Value
  | ValueEntries.nil, _ => none
  | ValueEntries.cons k' v rest, k =>
    if k' = k then some v else rest.get k

/-- Python dict assignment entries[k] = v: replaces the value of an
existing key in place, otherwise appends the new pair at the end. -/
def ValueEntries.set : ValueEntries → String → Value → ValueEntries
  | ValueEntries.nil, k, v => ValueEntries.cons k v ValueEntries.nil
  | ValueEntries.cons k' v' rest, k, v =>
    if k' = k then ValueEntries.cons k' v rest
    else ValueEntries.cons k' v' (rest.set k v)

/-- Keys of a dict, in insertion order. -/
def ValueEntries.keys : ValueEntries → List String
  | ValueEntries.nil => []
  | ValueEntries.cons k _ rest => k :: rest.keys

/-- Python subscript value[k] with a string index, as used by the Split
strategy walk.  Dicts answer the lookup (KeyError when absent); a string
raises TypeError (string indices must be integers); other non-container
values are not subscriptable. -/
def pySubscript : Value → String → Except PyErr Value
  | Value.dict d, k =>
    match d.get k with
    | some v => Except.ok v
    | none => Except.error (PyErr.keyError k)
  | Value.str _, _ => Except.error (PyErr.typeError "string indices must be integers")
  | _, _ => Except.error (PyErr.typeError "object is not subscriptable")

/-- Python subscript assignment value[k] = v.  Only dicts accept it; the
functional result replaces Python's in-place mutation (configuration
trees have no internal aliasing). -/
def pySubscriptSet : Value → String → Value → Except PyErr Value
  | Value.dict d, k, v => Except.ok (Value.dict (d.set k v))
  | Value.str _, _, _ => Except.error (PyErr.typeError "str object does not support item assignment")
  | _, _, _ => Except.error (PyErr.typeError "object does not support item assignment")

/-- Embedding of Python key_str.split on a dot, structurally recursive so
that it evaluates in the kernel.  Matches str.split semantics: the empty
string splits to a single empty component, and separators at the ends
produce empty components. -/
def splitDotAux : List Char → List Char → List String
  | [], acc => [String.mk acc.reverse]
  | c :: rest, acc =>
    if c = '.' then String.mk acc.reverse :: splitDotAux rest []
    else splitDotAux rest (c :: acc)

/-- Split a key string on dots (Python key_str.split with a dot). -/
def splitDot (s : String) : List String :=
  splitDotAux s.toList []

/-- Read walk of DictLayer.__dot_split_operation (core.py 150-162) in get
mode: the loop over all path components but the last wraps any
LookupError into NoConfigKey carrying the original key; the final
subscript on the last component is performed outside the loop and is NOT
wrapped (its raw KeyError or TypeError escapes). -/
def dotGetAux : Value → List String → String → String → Except PyErr Value
  | cur, [], last, _ => pySubscript cur last
  | cur, k :: rest, last, orig =>
    match pySubscript cur k with
    | Except.ok child => dotGetAux child rest last orig
    | Except.error e =>
      if e.isLookupError then Except.error (PyErr.noConfigKey orig)
      else Except.error e

/-- Write walk of DictLayer.__dot_split_operation (core.py 150-164) in
set mode: same loop with the same NoConfigKey wrapping; the final
component is assigned outside the loop.  The functional write-back along
the walked path replaces Python's mutation of the shared nested dict. -/
def dotSetAux : Value → List String → String → String → Value → Except PyErr Value
  | cur, [], last, _, v => pySubscriptSet cur last v
  | cur, k :: rest, last, orig, v =>
    match pySubscript cur k with
    | Except.ok child =>
      match dotSetAux child rest last orig v with
      | Except.ok child' => pySubscriptSet cur k child'
      | Except.error e => Except.error e
    | Except.error e =>
      if e.isLookupError then Except.error (PyErr.noConfigKey orig)
      else Except.error e

mutual
/-- Recursive key enumeration of DictLayer.__dot_split_keys (core.py
174-189), value side: a value with keys (a dict) is descended into, any
other value makes the accumulated dot-path a leaf key. -/
def getSubkeysV : Value → String → List String
  | Value.dict d, full => getSubkeysE d full
  | _, full => [full]

/-- Recursive key enumeration of DictLayer.__dot_split_keys, dict side:
iterate the entries in order, extending the dotted context. -/
def getSubkeysE : ValueEntries → String → List String
  | ValueEntries.nil, _ => []
  | ValueEntries.cons k v rest, ctx =>
    getSubkeysV v (if ctx = "" then k else ctx ++ "." ++ k) ++ getSubkeysE rest ctx
end

/-- Embedding of DictLayer (core.py 107-198): a named layer over a
Python dict with a fixed dot strategy and a mutability flag fixed at
construction. -/
structure DictLayer where
  name : String
  mutable : Bool
  config : ValueEntries
  dot_strategy : DictStructure

/-- DictLayer.__getitem__ (core.py 129-139): Split delegates to the
dot-split walk, Flat looks the key up verbatim (KeyError when absent). -/
def DictLayer.getItem (L : DictLayer) (key : String) : Except PyErr Value :=
  match L.dot_strategy with
  | DictStructure.Split =>
    let parts := splitDot key
    dotGetAux (Value.dict L.config) parts.dropLast (parts.getLastD "") key
  | DictStructure.Flat =>
    match L.config.get key with
    | some v => Except.ok v
    | none => Except.error (PyErr.keyError key)

/-- DictLayer.__setitem__ (core.py 141-148): Split writes through the
dot-split walk, Flat assigns verbatim. -/
def DictLayer.setItem (L : DictLayer) (key : String) (v : Value) : Except PyErr DictLayer :=
  match L.dot_strategy with
  | DictStructure.Split =>
    let parts := splitDot key
    match dotSetAux (Value.dict L.config) parts.dropLast (parts.getLastD "") key v with
    | Except.ok (Value.dict c) => Except.ok { L with config := c }
    | Except.ok _ => Except.ok L
    | Except.error e => Except.error e
  | DictStructure.Flat =>
    Except.ok { L with config := L.config.set key v }

/-- BaseConfigLayer.setdefault (core.py 73-79): assert mutability, try
the lookup, catch only LookupError, and on absence store and return the
default.  Returns the value together with the updated layer. -/
def DictLayer.setdefault (L : DictLayer) (key : String) (default : Value) :
    Except PyErr (Value × DictLayer) :=
  if L.mutable then
    match L.getItem key with
    | Except.ok v => Except.ok (v, L)
    | Except.error e =>
      if e.isLookupError then
        match L.setItem key default with
        | Except.ok L' => Except.ok (default, L')
        | Except.error e' => Except.error e'
      else Except.error e
  else
    Except.error (PyErr.immutableLayer ("Attempted modification of immutable layer: " ++ L.name))

/-- DictLayer.names (core.py 191-198): Split enumerates leaf dot-paths
recursively, Flat returns the dict keys. -/
def DictLayer.names (L : DictLayer) : List String :=
  match L.dot_strategy with
  | DictStructure.Split => getSubkeysE L.config ""
  | DictStructure.Flat => L.config.keys

/-- The ordered layer registry CLAC._lookup: a Python dict from layer
name to layer, kept here as the ordered list of layers. -/
abbrev Registry := List DictLayer

/-- Lookup of CLAC._lookup[name]: first layer with the given name. -/
def findLayer : Registry → String → Option DictLayer
  | [], _ => none
  | L :: rest, n => if L.name = n then some L else findLayer rest n

namespace CLAC

/-- Layer scan of CLAC.__getitem__ (core.py 225-233): try each layer in
priority order, catching only LookupError; the first success wins, and a
full miss raises NoConfigKey. -/
def scanFetch : Registry → String → Except PyErr Value
  | [], key => Except.error (PyErr.noConfigKey key)
  | L :: rest, key =>
    match L.getItem key with
    | Except.ok v => Except.ok v
    | Except.error e =>
      if e.isLookupError then scanFetch rest key else Except.error e

/-- CLAC.__getitem__ (core.py 221-233): an empty key is rejected with
ValueError before any layer is consulted; otherwise the priority scan. -/
def getItem (reg : Registry) (key : String) : Except PyErr Value :=
  if key = "" then Except.error (PyErr.valueError "key param must be non-empty string.")
  else scanFetch reg key

/-- The callback application at the end of CLAC.get: Python only calls
the callback when one was passed (None is falsy). -/
def applyCallback : Option (Value → Value) → Value → Value
  | some f, v => f v
  | none, v => v

/-- CLAC.get (core.py 235-281).  A truthy layer_name (non-None and
non-empty) restricts the lookup to that layer, raising MissingLayer when
it is not registered; a falsy one scans the whole registry through
__getitem__.  Only LookupError is converted to the default; other
errors propagate.  The callback transforms found values only. -/
def get (reg : Registry) (key : String) (default : Value)
    (layerName : Option String) (callback : Option (Value → Value)) : Except PyErr Value :=
  let lnTruthy : Option String :=
    match layerName with
    | some s => if s = "" then none else some s
    | none => none
  match lnTruthy with
  | some ln =>
    match findLayer reg ln with
    | none => Except.error (PyErr.missingLayer ln)
    | some L =>
      match L.getItem key with
      | Except.ok v => Except.ok (applyCallback callback v)
      | Except.error e =>
        if e.isLookupError then Except.ok default else Except.error e
  | none =>
    match getItem reg key with
    | Except.ok v => Except.ok (applyCallback callback v)
    | Except.error e =>
      if e.isLookupError then Except.ok default else Except.error e

/-- CLAC.__setitem__ (core.py 283-290): find the first mutable layer and
write there; with no mutable layer raise ImmutableLayer. -/
def setItem : Registry → String → Value → Except PyErr Registry
  | [], _, _ => Except.error (PyErr.immutableLayer "No mutable layers detected")
  | L :: rest, key, v =>
    if L.mutable then
      match L.setItem key v with
      | Except.ok L' => Except.ok (L' :: rest)
      | Except.error e => Except.error e
    else
      match setItem rest key v with
      | Except.ok rest' => Except.ok (L :: rest')
      | Except.error e => Except.error e

/-- CLAC.setdefault (core.py 292-295): delegate to the first mutable
layer's setdefault; with no mutable layer the loop falls through and the
method returns Python None, touching nothing. -/
def setdefault : Registry → String → Value → Except PyErr (Value × Registry)
  | [], _, _ => Except.ok (Value.pyNone, [])
  | L :: rest, key, d =>
    if L.mutable then
      match L.setdefault key d with
      | Except.ok (v, L') => Except.ok (v, L' :: rest)
      | Except.error e => Except.error e
    else
      match setdefault rest key d with
      | Except.ok (v, rest') => Except.ok (v, L :: rest')
      | Except.error e => Except.error e

/-- Single step of CLAC.add_layers (core.py 304-311):
self._lookup[layer.name] = layer on a Python dict replaces an existing
entry in place (keeping its position) and appends a new one. -/
def addLayer (reg : Registry) (L : DictLayer) : Registry :=
  match findLayer reg L.name with
  | some _ => reg.map (fun x => if x.name = L.name then L else x)
  | none => reg ++ [L]

/-- CLAC.add_layers (core.py 304-311): fold the layers in FIFO order. -/
def add_layers (reg : Registry) (ls : List DictLayer) : Registry :=
  ls.foldl addLayer reg

/-- CLAC.names (core.py 333-339): union of every layer's key set. -/
def names (reg : Registry) : Finset String :=
  reg.foldl (fun acc L => acc ∪ L.names.toFinset) ∅

/-- Iteration of CLAC.resolve (core.py 341-356): for each layer NAME the
code calls self.get(key, layer_name=name) with the default None, and
continues only on NoConfigKey; any other error propagates, and a
success (including the swallowed-miss default None) is returned with the
layer name. -/
def resolveAux (reg : Registry) : List String → String → Except PyErr (String × Value)
  | [], key => Except.error (PyErr.noConfigKey key)
  | ln :: rest, key =>
    match get reg key Value.pyNone (some ln) none with
    | Except.ok v => Except.ok (ln, v)
    | Except.error e =>
      match e with
      | PyErr.noConfigKey _ => resolveAux reg rest key
      | _ => Except.error e

/-- CLAC.resolve (core.py 341-356). -/
def resolve (reg : Registry) (key : String) : Except PyErr (String × Value) :=
  resolveAux reg (reg.map DictLayer.name) key

/-- Tuple reversal helper of CLAC.build_lri (core.py 371-374). -/
def rvsd (key_first : Bool) (t : String × String) : String × String :=
  if key_first then (t.2, t.1) else t

/-- Worklist loop of CLAC.build_lri (core.py 376-384): pop the pairs in
priority order, subtract the names already claimed, record the remaining
names for the current layer, and accumulate the claimed names. -/
def buildLriGo (key_first : Bool) :
    List (String × Finset String) → Finset String → Finset (String × String) →
    Finset (String × String)
  | [], _, lri => lri
  | (layername, layerset) :: rest, name_index, lri =>
    let ls := layerset \ name_index
    buildLriGo key_first rest (name_index ∪ ls)
      (lri ∪ ls.image (fun key => rvsd key_first (layername, key)))

/-- CLAC.build_lri (core.py 358-384): the layer resolution index. -/
def build_lri (reg : Registry) (key_first : Bool) : Finset (String × String) :=
  buildLriGo key_first (reg.map fun l => (l.name, l.names.toFinset)) ∅ ∅

end CLAC

/-- Specification-side helper: the name of the first (highest-priority)
layer whose key enumeration contains the key. -/
def firstLayerFor : Registry → String → Option String
  | [], _ => none
  | L :: rest, k => if k ∈ L.names then some L.name else firstLayerFor rest k

/-- First-claim helper over the (name, key-set) pairs build_lri starts
from. -/
def firstClaim : List (String × Finset String) → String → Option String
  | [], _ => none
  | (n, s) :: rest, k => if k ∈ s then some n else firstClaim rest k

/-- Hierarchical demo layer over the dict mapping a to the dict mapping
b to the string c, as in spec section 8. -/
def splitDemo : DictLayer :=
  { name := "test"
    mutable := false
    config := ValueEntries.cons "a" (Value.dict (ValueEntries.cons "b" (Value.str "c") ValueEntries.nil)) ValueEntries.nil
    dot_strategy := DictStructure.Split }

/-- Two-layer registry whose first layer is empty and whose second binds
the key k, exercising CLAC.resolve on a key absent from the first layer. -/
def demoRegC1 : Registry :=
  [ { name := "alpha", mutable := false, config := ValueEntries.nil, dot_strategy := DictStructure.Flat }
  , { name := "beta", mutable := false
    , config := ValueEntries.cons "k" (Value.str "v") ValueEntries.nil
    , dot_strategy := DictStructure.Flat } ]

/-- One-layer flat registry binding the key k, for concrete resolution
index checks. -/
def demoReg4 : Registry :=
  [ { name := "a", mutable := false
    , config := ValueEntries.cons "k" (Value.str "x") ValueEntries.nil
    , dot_strategy := DictStructure.Flat } ]

/-- Immutable flat layer binding k to A, shadowing later layers. -/
def alphaW : DictLayer :=
  { name := "alpha", mutable := false
  , config := ValueEntries.cons "k" (Value.str "A") ValueEntries.nil
  , dot_strategy := DictStructure.Flat }

/-- Mutable flat layer that starts empty. -/
def mW : DictLayer :=
  { name := "m", mutable := true, config := ValueEntries.nil, dot_strategy := DictStructure.Flat }

/-- The layer mW after writing k to v. -/
def mW2 : DictLayer :=
  { name := "m", mutable := true
  , config := ValueEntries.cons "k" (Value.str "v") ValueEntries.nil
  , dot_strategy := DictStructure.Flat }

/-- Mutable hierarchical layer that starts empty: writes to dotted keys
fail because the intermediate path components do not exist. -/
def mSplitW : DictLayer :=
  { name := "m", mutable := true, config := ValueEntries.nil, dot_strategy := DictStructure.Split }

/-- First layer registered under the name a, binding the key x. -/
def dupA1 : DictLayer :=
  { name := "a", mutable := false
  , config := ValueEntries.cons "x" (Value.int 1) ValueEntries.nil
  , dot_strategy := DictStructure.Flat }

/-- Second layer registered under the same name a, with no keys. -/
def dupA2 : DictLayer :=
  { name := "a", mutable := false, config := ValueEntries.nil, dot_strategy := DictStructure.Flat }

/-- Flat layer named p, ahead of the replaced layer. -/
def pW : DictLayer :=
  { name := "p", mutable := false, config := ValueEntries.nil, dot_strategy := DictStructure.Flat }

/-- Flat layer named o, later replaced by a new layer of the same name. -/
def oldW : DictLayer :=
  { name := "o", mutable := false
  , config := ValueEntries.cons "x" (Value.int 1) ValueEntries.nil
  , dot_strategy := DictStructure.Flat }

/-- Flat layer named q, behind the replaced layer. -/
def qW : DictLayer :=
  { name := "q", mutable := false, config := ValueEntries.nil, dot_strategy := DictStructure.Flat }

/-- Replacement layer also named o. -/
def newW : DictLayer :=
  { name := "o", mutable := false, config := ValueEntries.nil, dot_strategy := DictStructure.Flat }

/-- First demo layer for precedence: binds k to A under the name a. -/
def l1W : DictLayer :=
  { name := "a", mutable := false
  , config := ValueEntries.cons "k" (Value.str "A") ValueEntries.nil
  , dot_strategy := DictStructure.Flat }

/-- Second demo layer for precedence: binds k to B under the name b. -/
def l2W : DictLayer :=
  { name := "b", mutable := false
  , config := ValueEntries.cons "k" (Value.str "B") ValueEntries.nil
  , dot_strategy := DictStructure.Flat }

/-- A Python dict lookup after a write to the same key returns the
written value. -/
theorem ValueEntries.get_set_self (d : ValueEntries) (k : String) (v : Value) :
    (d.set k v).get k = some v := by
  match d with
  | ValueEntries.nil => simp [ValueEntries.set, ValueEntries.get]
  | ValueEntries.cons k' v' rest =>
    by_cases h : k' = k
    · simp [ValueEntries.set, h, ValueEntries.get]
    · simp [ValueEntries.set, h, ValueEntries.get, ValueEntries.get_set_self rest k v]

/-- A successful dot-split write is read back by the dot-split walk on
the same path. -/
theorem dotSet_get_roundtrip (ks : List String) :
    ∀ (cur cur' : Value) (last orig orig' : String) (v : Value),
      dotSetAux cur ks last orig v = Except.ok cur' →
      dotGetAux cur' ks last orig' = Except.ok v := by
  induction ks with
  | nil =>
    intro cur cur' last orig orig' v h
    simp only [dotSetAux] at h
    cases cur with
    | dict d =>
      simp only [pySubscriptSet] at h
      injection h with h
      subst h
      simp [dotGetAux, pySubscript, ValueEntries.get_set_self]
    | pyNone => simp [pySubscriptSet] at h
    | str s => simp [pySubscriptSet] at h
    | int n => simp [pySubscriptSet] at h
  | cons k rest ih =>
    intro cur cur' last orig orig' v h
    cases hs : pySubscript cur k with
    | error e =>
      simp only [dotSetAux, hs] at h
      by_cases hl : e.isLookupError <;> simp [hl] at h
    | ok child =>
      simp only [dotSetAux, hs] at h
      cases hrec : dotSetAux child rest last orig v with
      | error e => simp only [hrec] at h; simp at h
      | ok child' =>
        simp only [hrec] at h
        cases cur with
        | dict d =>
          simp only [pySubscriptSet] at h
          injection h with h
          subst h
          have hget : pySubscript (Value.dict (d.set k child')) k = Except.ok child' := by
            simp [pySubscript, ValueEntries.get_set_self]
          simp only [dotGetAux, hget]
          exact ih child child' last orig orig' v hrec
        | pyNone => simp [pySubscriptSet] at h
        | str s => simp [pySubscriptSet] at h
        | int n => simp [pySubscriptSet] at h

/-- A successful dot-split write on a dict root produces a dict root. -/
theorem dotSetAux_dict_root (c : ValueEntries) (ks : List String) (last orig : String)
    (v w : Value) (h : dotSetAux (Value.dict c) ks last orig v = Except.ok w) :
    ∃ c', w = Value.dict c' := by
  cases ks with
  | nil =>
    simp only [dotSetAux, pySubscriptSet] at h
    injection h with h
    exact ⟨_, h.symm⟩
  | cons k rest =>
    cases hs : pySubscript (Value.dict c) k with
    | error e =>
      simp only [dotSetAux, hs] at h
      by_cases hl : e.isLookupError <;> simp [hl] at h
    | ok child =>
      simp only [dotSetAux, hs] at h
      cases hrec : dotSetAux child rest last orig v with
      | error e => simp only [hrec] at h; simp at h
      | ok child' =>
        simp only [hrec] at h
        simp only [pySubscriptSet] at h
        injection h with h
        exact ⟨_, h.symm⟩

/-- DictLayer.__setitem__ only changes the stored dict: name, mutability
flag and strategy survive a successful write. -/
theorem DictLayer.setItem_fields (L L' : DictLayer) (key : String) (v : Value)
    (h : L.setItem key v = Except.ok L') :
    L'.name = L.name ∧ L'.mutable = L.mutable ∧ L'.dot_strategy = L.dot_strategy := by
  rcases L with ⟨n, m, c, ds⟩
  cases ds with
  | Flat =>
    simp only [DictLayer.setItem] at h
    injection h with h
    subst h
    exact ⟨rfl, rfl, rfl⟩
  | Split =>
    cases hd : dotSetAux (Value.dict c) (splitDot key).dropLast ((splitDot key).getLastD "") key v with
    | error e =>
      simp only [DictLayer.setItem, hd] at h
      exact Except.noConfusion h
    | ok w =>
      cases w <;> simp only [DictLayer.setItem, hd] at h <;>
        injection h with h <;> subst h <;> exact ⟨rfl, rfl, rfl⟩

/-- Read-after-write on one layer: a successful DictLayer.__setitem__ is
observed by DictLayer.__getitem__ on the same key. -/
theorem DictLayer.getItem_setItem (L L' : DictLayer) (key : String) (v : Value)
    (h : L.setItem key v = Except.ok L') :
    L'.getItem key = Except.ok v := by
  rcases L with ⟨n, m, c, ds⟩
  cases ds with
  | Flat =>
    simp only [DictLayer.setItem] at h
    injection h with h
    subst h
    simp [DictLayer.getItem, ValueEntries.get_set_self]
  | Split =>
    cases hd : dotSetAux (Value.dict c) (splitDot key).dropLast ((splitDot key).getLastD "") key v with
    | error e =>
      simp only [DictLayer.setItem, hd] at h
      exact Except.noConfusion h
    | ok w =>
      obtain ⟨c', rfl⟩ := dotSetAux_dict_root c _ _ _ v w hd
      simp only [DictLayer.setItem, hd] at h
      injection h with h
      subst h
      simp only [DictLayer.getItem]
      exact dotSet_get_roundtrip _ _ _ _ _ _ _ hd

/-- A failing Python subscript read raises KeyError or TypeError. -/
theorem pySubscript_error (cur : Value) (k : String) (e : PyErr)
    (h : pySubscript cur k = Except.error e) :
    (∃ s, e = PyErr.keyError s) ∨ (∃ s, e = PyErr.typeError s) := by
  cases cur with
  | dict d =>
    cases hg : d.get k with
    | some w =>
      simp only [pySubscript, hg] at h
      exact Except.noConfusion h
    | none =>
      simp only [pySubscript, hg] at h
      injection h with h
      exact Or.inl ⟨k, h.symm⟩
  | pyNone =>
    simp only [pySubscript] at h
    injection h with h
    exact Or.inr ⟨_, h.symm⟩
  | str s =>
    simp only [pySubscript] at h
    injection h with h
    exact Or.inr ⟨_, h.symm⟩
  | int i =>
    simp only [pySubscript] at h
    injection h with h
    exact Or.inr ⟨_, h.symm⟩

/-- A failing Python subscript assignment raises TypeError. -/
theorem pySubscriptSet_error (cur : Value) (k : String) (v : Value) (e : PyErr)
    (h : pySubscriptSet cur k v = Except.error e) :
    ∃ s, e = PyErr.typeError s := by
  cases cur with
  | dict d =>
    simp only [pySubscriptSet] at h
    exact Except.noConfusion h
  | pyNone =>
    simp only [pySubscriptSet] at h
    injection h with h
    exact ⟨_, h.symm⟩
  | str s =>
    simp only [pySubscriptSet] at h
    injection h with h
    exact ⟨_, h.symm⟩
  | int i =>
    simp only [pySubscriptSet] at h
    injection h with h
    exact ⟨_, h.symm⟩

/-- The dot-split write never raises ImmutableLayer. -/
theorem dotSetAux_error_shape (ks : List String) :
    ∀ (cur : Value) (last orig : String) (v : Value) (e : PyErr),
      dotSetAux cur ks last orig v = Except.error e →
      ∀ m, e ≠ PyErr.immutableLayer m := by
  induction ks with
  | nil =>
    intro cur last orig v e h m
    obtain ⟨s, rfl⟩ := pySubscriptSet_error cur last v e (by simpa [dotSetAux] using h)
    intro hc; cases hc
  | cons k rest ih =>
    intro cur last orig v e h m
    cases hs : pySubscript cur k with
    | error e' =>
      simp only [dotSetAux, hs] at h
      by_cases hl : e'.isLookupError = true
      · rw [if_pos hl] at h
        injection h with h
        subst h
        intro hc; cases hc
      · rw [if_neg hl] at h
        injection h with h
        subst h
        rcases pySubscript_error cur k _ hs with ⟨s, rfl⟩ | ⟨s, rfl⟩
        · simp [PyErr.isLookupError] at hl
        · intro hc; cases hc
    | ok child =>
      simp only [dotSetAux, hs] at h
      cases hrec : dotSetAux child rest last orig v with
      | error e' =>
        simp only [hrec] at h
        injection h with h
        subst h
        exact ih child last orig v _ hrec m
      | ok child' =>
        simp only [hrec] at h
        obtain ⟨s, rfl⟩ := pySubscriptSet_error cur k child' e h
        intro hc; cases hc

/-- DictLayer.__setitem__ never raises ImmutableLayer. -/
theorem DictLayer.setItem_error_shape (L : DictLayer) (key : String) (v : Value) (e : PyErr)
    (h : L.setItem key v = Except.error e) :
    ∀ m, e ≠ PyErr.immutableLayer m := by
  rcases L with ⟨n, m', c, ds⟩
  cases ds with
  | Flat =>
    simp only [DictLayer.setItem] at h
    exact Except.noConfusion h
  | Split =>
    cases hd : dotSetAux (Value.dict c) (splitDot key).dropLast ((splitDot key).getLastD "") key v with
    | error e' =>
      simp only [DictLayer.setItem, hd] at h
      injection h with h
      subst h
      exact dotSetAux_error_shape _ _ _ _ _ _ hd
    | ok w =>
      cases w <;> simp only [DictLayer.setItem, hd] at h <;> exact Except.noConfusion h

/-- A scan that succeeds on a prefix of the registry succeeds unchanged
on any extension of it. -/
theorem CLAC.scanFetch_append_ok (pre rest : Registry) (k : String) (w : Value)
    (h : CLAC.scanFetch pre k = Except.ok w) :
    CLAC.scanFetch (pre ++ rest) k = Except.ok w := by
  induction pre with
  | nil => simp [CLAC.scanFetch] at h
  | cons L tl ih =>
    rw [List.cons_append]
    cases hg : L.getItem k with
    | ok v =>
      simp only [CLAC.scanFetch, hg] at h ⊢
      exact h
    | error e =>
      simp only [CLAC.scanFetch, hg] at h ⊢
      by_cases hl : e.isLookupError = true
      · rw [if_pos hl] at h ⊢
        exact ih h
      · rw [if_neg hl] at h
        exact Except.noConfusion h

/-- CLAC.__setitem__ routing: with every layer ahead of the first
mutable layer immutable, a successful write to that layer updates it in
place and leaves every other layer untouched. -/
theorem CLAC.setItem_ok_of (pre post : Registry) (Lm Lm' : DictLayer) (k : String) (v : Value)
    (hpre : ∀ L ∈ pre, L.mutable = false) (hm : Lm.mutable = true)
    (hset : Lm.setItem k v = Except.ok Lm') :
    CLAC.setItem (pre ++ Lm :: post) k v = Except.ok (pre ++ Lm' :: post) := by
  induction pre with
  | nil =>
    simp only [List.nil_append, CLAC.setItem, hm, if_true, hset]
  | cons P tl ih =>
    have hP : P.mutable = false := hpre P (List.mem_cons_self P tl)
    have htl : ∀ L ∈ tl, L.mutable = false := fun L hL => hpre L (List.mem_cons_of_mem P hL)
    rw [List.cons_append]
    simp only [CLAC.setItem, hP, Bool.false_eq_true, if_false, ih htl]
    rfl

/-- CLAC.__setitem__ raises exactly the no-mutable-layers ImmutableLayer
error precisely when no registered layer is mutable. -/
theorem CLAC.setItem_immutable_iff (reg : Registry) (k : String) (v : Value) :
    CLAC.setItem reg k v = Except.error (PyErr.immutableLayer "No mutable layers detected")
      ↔ ∀ L ∈ reg, L.mutable = false := by
  induction reg with
  | nil => simp [CLAC.setItem]
  | cons L tl ih =>
    by_cases hm : L.mutable = true
    · constructor
      · intro h
        exfalso
        simp only [CLAC.setItem, hm, if_true] at h
        cases hset : L.setItem k v with
        | ok L' => rw [hset] at h; exact Except.noConfusion h
        | error e =>
          rw [hset] at h
          injection h with h
          exact DictLayer.setItem_error_shape L k v e hset _ h
      · intro h
        exact absurd hm (by simp [h L (List.mem_cons_self L tl)])
    · have hm' : L.mutable = false := by
        cases hL : L.mutable
        · rfl
        · exact absurd hL hm
      constructor
      · intro h
        simp only [CLAC.setItem, hm', Bool.false_eq_true, if_false] at h
        intro L' hL'
        rcases List.mem_cons.1 hL' with rfl | hL'
        · exact hm'
        · cases htl : CLAC.setItem tl k v with
          | ok r => rw [htl] at h; exact Except.noConfusion h
          | error e =>
            rw [htl] at h
            injection h with h
            subst h
            exact (ih.1 htl) L' hL'
      · intro h
        have htl : CLAC.setItem tl k v = Except.error (PyErr.immutableLayer "No mutable layers detected") :=
          ih.2 (fun L' hL' => h L' (List.mem_cons_of_mem L hL'))
        simp only [CLAC.setItem, hm', Bool.false_eq_true, if_false, htl]

/-- CLAC.setdefault routing: the call delegates to the first mutable
layer, whose successful answer is returned with only that layer
updated. -/
theorem CLAC.setdefault_ok_of (pre post : Registry) (Lm Lm' : DictLayer) (k : String)
    (d v : Value)
    (hpre : ∀ L ∈ pre, L.mutable = false) (hm : Lm.mutable = true)
    (hsd : Lm.setdefault k d = Except.ok (v, Lm')) :
    CLAC.setdefault (pre ++ Lm :: post) k d = Except.ok (v, pre ++ Lm' :: post) := by
  induction pre with
  | nil =>
    simp only [List.nil_append, CLAC.setdefault, hm, if_true, hsd]
  | cons P tl ih =>
    have hP : P.mutable = false := hpre P (List.mem_cons_self P tl)
    have htl : ∀ L ∈ tl, L.mutable = false := fun L hL => hpre L (List.mem_cons_of_mem P hL)
    rw [List.cons_append]
    simp only [CLAC.setdefault, hP, Bool.false_eq_true, if_false, ih htl]
    rfl

/-- CLAC.setdefault on a registry with no mutable layer falls off the
loop: it returns Python None and leaves every layer unchanged. -/
theorem CLAC.setdefault_all_immutable (reg : Registry) (k : String) (d : Value)
    (h : ∀ L ∈ reg, L.mutable = false) :
    CLAC.setdefault reg k d = Except.ok (Value.pyNone, reg) := by
  induction reg with
  | nil => simp [CLAC.setdefault]
  | cons L tl ih =>
    have hL : L.mutable = false := h L (List.mem_cons_self L tl)
    have htl : CLAC.setdefault tl k d = Except.ok (Value.pyNone, tl) :=
      ih (fun L' hL' => h L' (List.mem_cons_of_mem L hL'))
    simp only [CLAC.setdefault, hL, Bool.false_eq_true, if_false, htl]

/-- A registry lookup misses exactly the names carried by no layer. -/
theorem findLayer_eq_none (reg : Registry) (n : String) :
    findLayer reg n = none ↔ ∀ x ∈ reg, x.name ≠ n := by
  induction reg with
  | nil => simp [findLayer]
  | cons L tl ih =>
    by_cases h : L.name = n
    · simp [findLayer, h]
    · simp [findLayer, h, ih]

/-- Layer lookup skips a prefix none of whose layers carry the name. -/
theorem findLayer_append (pre rest : Registry) (n : String)
    (hpre : ∀ x ∈ pre, x.name ≠ n) :
    findLayer (pre ++ rest) n = findLayer rest n := by
  induction pre with
  | nil => rfl
  | cons P tl ih =>
    have hP : P.name ≠ n := hpre P (List.mem_cons_self P tl)
    rw [List.cons_append]
    simp only [findLayer, hP, if_false]
    exact ih (fun x hx => hpre x (List.mem_cons_of_mem P hx))

/-- Scoped CLAC.get: a truthy registered layer name restricts the lookup
to that layer, whose successful fetch is returned as-is. -/
theorem CLAC.get_scoped (reg : Registry) (k : String) (d : Value) (ln : String)
    (L : DictLayer) (v : Value)
    (hln : ln ≠ "") (hfind : findLayer reg ln = some L) (hv : L.getItem k = Except.ok v) :
    CLAC.get reg k d (some ln) none = Except.ok v := by
  simp only [CLAC.get, hln, if_false, hfind, hv, applyCallback]

/-- Registering a layer whose name is fresh appends it at the end of the
priority order. -/
theorem CLAC.addLayer_fresh (reg : Registry) (L : DictLayer)
    (h : ∀ x ∈ reg, x.name ≠ L.name) :
    CLAC.addLayer reg L = reg ++ [L] := by
  simp only [CLAC.addLayer, (findLayer_eq_none reg L.name).2 h]

/-- Mapping the name-match replacement over layers that do not carry the
name changes nothing. -/
theorem map_replace_skip (L : DictLayer) (l : Registry)
    (h : ∀ x ∈ l, x.name ≠ L.name) :
    l.map (fun x => if x.name = L.name then L else x) = l := by
  induction l with
  | nil => rfl
  | cons P tl ih =>
    have hP : P.name ≠ L.name := h P (List.mem_cons_self P tl)
    simp only [List.map_cons, hP, if_false]
    rw [ih (fun x hx => h x (List.mem_cons_of_mem P hx))]

/-- Registering a layer under an existing name replaces the old layer in
its original position and leaves every other layer unchanged. -/
theorem CLAC.addLayer_replace (pre post : Registry) (old L : DictLayer)
    (hpre : ∀ x ∈ pre, x.name ≠ L.name)
    (hpost : ∀ x ∈ post, x.name ≠ L.name)
    (hold : old.name = L.name) :
    CLAC.addLayer (pre ++ old :: post) L = pre ++ L :: post := by
  have hfind : findLayer (pre ++ old :: post) L.name = some old := by
    rw [findLayer_append pre (old :: post) L.name hpre]
    simp [findLayer, hold]
  simp only [CLAC.addLayer, hfind, List.map_append, List.map_cons, hold, if_true,
    map_replace_skip L pre hpre, map_replace_skip L post hpost]

/-- Registering a list of layers with fresh, pairwise distinct names
appends them in order. -/
theorem CLAC.add_layers_fresh (ls : List DictLayer) :
    ∀ (reg : Registry),
      (∀ x ∈ ls, ∀ y ∈ reg, y.name ≠ x.name) →
      (ls.map DictLayer.name).Nodup →
      CLAC.add_layers reg ls = reg ++ ls := by
  induction ls with
  | nil => intro reg _ _; simp [CLAC.add_layers]
  | cons l tl ih =>
    intro reg hfresh hnodup
    have h1 : CLAC.addLayer reg l = reg ++ [l] :=
      CLAC.addLayer_fresh reg l (fun y hy => hfresh l (List.mem_cons_self l tl) y hy)
    have hnodup' : (tl.map DictLayer.name).Nodup := (List.nodup_cons.1 hnodup).2
    have hlnot : l.name ∉ tl.map DictLayer.name := (List.nodup_cons.1 hnodup).1
    have hfresh' : ∀ x ∈ tl, ∀ y ∈ reg ++ [l], y.name ≠ x.name := by
      intro x hx y hy
      rcases List.mem_append.1 hy with hy | hy
      · exact hfresh x (List.mem_cons_of_mem l hx) y hy
      · rcases List.mem_singleton.1 hy with rfl
        intro hc
        exact hlnot (hc ▸ List.mem_map_of_mem DictLayer.name hx)
    calc CLAC.add_layers reg (l :: tl)
        = CLAC.add_layers (CLAC.addLayer reg l) tl := rfl
      _ = (reg ++ [l]) ++ tl := by rw [h1]; exact ih (reg ++ [l]) hfresh' hnodup'
      _ = reg ++ l :: tl := by simp

/-- Membership in the folded union of layer key sets. -/
theorem names_foldl_mem (l : List DictLayer) :
    ∀ (init : Finset String) (k : String),
      (k ∈ l.foldl (fun acc L => acc ∪ L.names.toFinset) init ↔
        k ∈ init ∨ ∃ L ∈ l, k ∈ L.names) := by
  induction l with
  | nil => intro init k; simp
  | cons L tl ih =>
    intro init k
    rw [List.foldl_cons, ih]
    simp only [Finset.mem_union, List.mem_toFinset, List.mem_cons]
    constructor
    · rintro ((h | h) | ⟨L', hL', h⟩)
      · exact Or.inl h
      · exact Or.inr ⟨L, Or.inl rfl, h⟩
      · exact Or.inr ⟨L', Or.inr hL', h⟩
    · rintro (h | ⟨L', (rfl | hL'), h⟩)
      · exact Or.inl (Or.inl h)
      · exact Or.inl (Or.inr h)
      · exact Or.inr ⟨L', hL', h⟩

/-- CLAC.names holds exactly the keys some registered layer
enumerates. -/
theorem CLAC.names_mem (reg : Registry) (k : String) :
    k ∈ CLAC.names reg ↔ ∃ L ∈ reg, k ∈ L.names := by
  have h := names_foldl_mem reg ∅ k
  simpa [CLAC.names] using h

/-- The first-layer search succeeds exactly when some layer enumerates
the key. -/
theorem firstLayerFor_isSome_iff (reg : Registry) (k : String) :
    (∃ n, firstLayerFor reg k = some n) ↔ ∃ L ∈ reg, k ∈ L.names := by
  induction reg with
  | nil => simp [firstLayerFor]
  | cons L tl ih =>
    by_cases h : k ∈ L.names
    · simp [firstLayerFor, h]
    · simp [firstLayerFor, h, ih]

/-- The pair list build_lri starts from determines the same first-claim
layer as the registry itself. -/
theorem firstClaim_map_names (reg : Registry) (k : String) :
    firstClaim (reg.map fun l => (l.name, l.names.toFinset)) k = firstLayerFor reg k := by
  induction reg with
  | nil => rfl
  | cons L tl ih =>
    by_cases h : k ∈ L.names
    · simp [firstClaim, firstLayerFor, List.mem_toFinset, h]
    · simp [firstClaim, firstLayerFor, List.mem_toFinset, h, ih]

/-- Membership characterization of the build_lri worklist loop: a pair
is produced exactly when it was already accumulated, or its key is
unclaimed and its layer is the first remaining layer enumerating the
key. -/
theorem buildLriGo_mem (kf : Bool) (pairs : List (String × Finset String)) :
    ∀ (idx : Finset String) (lri : Finset (String × String)) (p : String × String),
      (p ∈ CLAC.buildLriGo kf pairs idx lri ↔
        p ∈ lri ∨ ∃ n k, p = CLAC.rvsd kf (n, k) ∧ k ∉ idx ∧ firstClaim pairs k = some n) := by
  induction pairs with
  | nil => intro idx lri p; simp [CLAC.buildLriGo, firstClaim]
  | cons q rest ih =>
    rcases q with ⟨n0, s0⟩
    intro idx lri p
    simp only [CLAC.buildLriGo]
    rw [ih]
    constructor
    · rintro (hp | ⟨n, k, hpe, hk, hfc⟩)
      · rcases Finset.mem_union.1 hp with h | h
        · exact Or.inl h
        · rcases Finset.mem_image.1 h with ⟨k, hk, hpe⟩
          rcases Finset.mem_sdiff.1 hk with ⟨hks0, hkidx⟩
          exact Or.inr ⟨n0, k, hpe.symm, hkidx, by simp [firstClaim, hks0]⟩
      · have hki : k ∉ idx := fun hc => hk (Finset.mem_union_left _ hc)
        have hks : k ∉ s0 := fun hc =>
          hk (Finset.mem_union_right _ (Finset.mem_sdiff.2 ⟨hc, hki⟩))
        exact Or.inr ⟨n, k, hpe, hki, by simp [firstClaim, hks, hfc]⟩
    · rintro (hp | ⟨n, k, hpe, hk, hfc⟩)
      · exact Or.inl (Finset.mem_union_left _ hp)
      · by_cases hks : k ∈ s0
        · simp only [firstClaim, hks, if_true, Option.some.injEq] at hfc
          subst hfc
          exact Or.inl (Finset.mem_union_right _
            (Finset.mem_image.2 ⟨k, Finset.mem_sdiff.2 ⟨hks, hk⟩, hpe.symm⟩))
        · simp only [firstClaim, hks, if_false] at hfc
          refine Or.inr ⟨n, k, hpe, ?_, hfc⟩
          simp [Finset.mem_union, Finset.mem_sdiff, hk, hks]

/-- Membership in the layer resolution index, in terms of the
first-layer search. -/
theorem build_lri_mem (reg : Registry) (kf : Bool) (p : String × String) :
    p ∈ CLAC.build_lri reg kf ↔
      ∃ n k, p = CLAC.rvsd kf (n, k) ∧ firstLayerFor reg k = some n := by
  rw [CLAC.build_lri, buildLriGo_mem]
  simp [firstClaim_map_names]

/-- Membership in the default-orientation resolution index. -/
theorem build_lri_false_mem (reg : Registry) (p : String × String) :
    p ∈ CLAC.build_lri reg false ↔ firstLayerFor reg p.2 = some p.1 := by
  rw [build_lri_mem]
  constructor
  · rintro ⟨n, k, rfl, h⟩
    simpa [CLAC.rvsd] using h
  · intro h
    exact ⟨p.1, p.2, by simp [CLAC.rvsd], h⟩

/-- Membership in the key-first resolution index. -/
theorem build_lri_true_mem (reg : Registry) (p : String × String) :
    p ∈ CLAC.build_lri reg true ↔ firstLayerFor reg p.1 = some p.2 := by
  rw [build_lri_mem]
  constructor
  · rintro ⟨n, k, rfl, h⟩
    simpa [CLAC.rvsd] using h
  · intro h
    exact ⟨p.2, p.1, by simp [CLAC.rvsd], h⟩

/-- Claim C1: the claim says CLAC.resolve returns the pair of the
highest-priority layer containing the key and its value, and signals
NoConfigKey when the key is absent everywhere.  The code disagrees with
its own docstring and test suite: self.get with a layer_name swallows
every LookupError into the default None, so resolve always answers with
the FIRST layer name paired with None.  On a registry whose first layer
lacks k while the second binds it (demoRegC1), resolve returns
(alpha, None) although item lookup finds the value in beta, and on a key
absent everywhere resolve still returns (alpha, None) instead of
signalling NoConfigKey. -/
theorem clac_resolve_first_layer_bug :
    CLAC.resolve demoRegC1 "k" = Except.ok ("alpha", Value.pyNone)
    ∧ CLAC.resolve demoRegC1 "zzz" = Except.ok ("alpha", Value.pyNone)
    ∧ CLAC.getItem demoRegC1 "k" = Except.ok (Value.str "v") :=
  ⟨rfl, rfl, rfl⟩

/-- Claim C2: for the hierarchical layer over the dict mapping a to the
dict mapping b to the string c, fetch of a.b returns c, the name set is
exactly the dot-path a.b, and fetch of a.x raises a KeyError that the
registry scan treats as key-absent (turning it into NoConfigKey).  The
final part of the claim fails: fetch of a.b.c, descending past the leaf
string c, raises TypeError, which is not a lookup failure, and the
registry scan propagates it instead of treating the key as absent. -/
theorem dictlayer_split_hierarchical_behavior :
    splitDemo.getItem "a.b" = Except.ok (Value.str "c")
    ∧ splitDemo.names = ["a.b"]
    ∧ splitDemo.getItem "a.x" = Except.error (PyErr.keyError "x")
    ∧ (PyErr.keyError "x").isLookupError = true
    ∧ CLAC.getItem [splitDemo] "a.x" = Except.error (PyErr.noConfigKey "a.x")
    ∧ splitDemo.getItem "a.b.c" = Except.error (PyErr.typeError "string indices must be integers")
    ∧ (PyErr.typeError "string indices must be integers").isLookupError = false
    ∧ CLAC.getItem [splitDemo] "a.b.c" = Except.error (PyErr.typeError "string indices must be integers") :=
  ⟨rfl, rfl, rfl, rfl, rfl, rfl, rfl, rfl⟩

/-- Claim C8: for every registry, including the empty one, item-style
lookup with the empty key raises the ValueError about a non-empty key,
before any layer is consulted: the result does not depend on the layers
at all, and in particular is never NoConfigKey. -/
theorem clac_empty_key_rejection (reg : Registry) :
    CLAC.getItem reg "" = Except.error (PyErr.valueError "key param must be non-empty string.") :=
  rfl

/-- Claim C9: on a registry with no mutable layer, setdefault falls off
its loop and returns Python None without raising and without touching
any layer, while setItem in the same state raises the ImmutableLayer
error. -/
theorem clac_setdefault_no_mutable_noop (reg : Registry) (k : String) (v : Value)
    (h : ∀ L ∈ reg, L.mutable = false) :
    CLAC.setdefault reg k v = Except.ok (Value.pyNone, reg)
    ∧ CLAC.setItem reg k v = Except.error (PyErr.immutableLayer "No mutable layers detected") :=
  ⟨CLAC.setdefault_all_immutable reg k v h, (CLAC.setItem_immutable_iff reg k v).2 h⟩

/-- Witness for claim C9 at a one-layer immutable registry. -/
theorem clac_setdefault_no_mutable_noop_witness :
    CLAC.setdefault [alphaW] "k" (Value.str "z") = Except.ok (Value.pyNone, [alphaW])
    ∧ CLAC.setItem [alphaW] "k" (Value.str "z") =
        Except.error (PyErr.immutableLayer "No mutable layers detected") :=
  clac_setdefault_no_mutable_noop [alphaW] "k" (Value.str "z")
    (by intro L hL; rcases List.mem_singleton.1 hL with rfl; rfl)

/-- Claim C3: registering layers in order L1 .. Ln builds the registry
in that order, and item-style lookup of a non-empty key defined by L1
answers with L1's value, whatever the later layers bind the key to. -/
theorem clac_getitem_precedence (L1 : DictLayer) (rest : List DictLayer) (k : String) (v : Value)
    (hnodup : ((L1 :: rest).map DictLayer.name).Nodup)
    (hk : k ≠ "")
    (h1 : L1.getItem k = Except.ok v) :
    CLAC.getItem (CLAC.add_layers [] (L1 :: rest)) k = Except.ok v := by
  rw [CLAC.add_layers_fresh (L1 :: rest) []
    (fun x _ y hy => absurd hy (List.not_mem_nil y)) hnodup]
  simp only [List.nil_append, CLAC.getItem, if_neg hk, CLAC.scanFetch, h1]

/-- Witness for claim C3: two flat layers both binding k; the first one
registered wins. -/
theorem clac_getitem_precedence_witness :
    CLAC.getItem (CLAC.add_layers [] [l1W, l2W]) "k" = Except.ok (Value.str "A") :=
  clac_getitem_precedence l1W [l2W] "k" (Value.str "A") (by decide) (by decide) rfl

/-- Claim C4: the layer resolution index is total and unique over the
aggregated key set: every key in CLAC.names is mentioned by exactly one
pair, the layer in that pair is the first registered layer whose names
contain the key, no pair mentions a key outside CLAC.names, and the
key-first index is the pairwise reversal of the default one. -/
theorem clac_build_lri_spec (reg : Registry) :
    (∀ k, k ∈ CLAC.names reg →
       ∃! p : String × String, p ∈ CLAC.build_lri reg false ∧ p.2 = k)
    ∧ (∀ n k, (n, k) ∈ CLAC.build_lri reg false →
        k ∈ CLAC.names reg ∧ firstLayerFor reg k = some n)
    ∧ CLAC.build_lri reg true =
        (CLAC.build_lri reg false).image (fun p => (p.2, p.1)) := by
  refine ⟨?_, ?_, ?_⟩
  · intro k hk
    obtain ⟨n, hn⟩ := (firstLayerFor_isSome_iff reg k).2 ((CLAC.names_mem reg k).1 hk)
    refine ⟨(n, k), ⟨(build_lri_false_mem reg (n, k)).2 hn, rfl⟩, ?_⟩
    rintro ⟨n', k'⟩ ⟨hmem, hk2⟩
    cases hk2
    have h' := (build_lri_false_mem reg (n', k')).1 hmem
    injection hn.symm.trans h' with h2
    exact Prod.ext_iff.mpr ⟨h2.symm, rfl⟩
  · intro n k hmem
    have h' := (build_lri_false_mem reg (n, k)).1 hmem
    exact ⟨(CLAC.names_mem reg k).2 ((firstLayerFor_isSome_iff reg k).1 ⟨n, h'⟩), h'⟩
  · ext p
    rw [build_lri_true_mem]
    simp only [Finset.mem_image]
    constructor
    · intro h
      exact ⟨(p.2, p.1), (build_lri_false_mem reg (p.2, p.1)).2 h, rfl⟩
    · rintro ⟨q, hq, rfl⟩
      exact (build_lri_false_mem reg q).1 hq

/-- Witness for claim C4 on a concrete one-layer registry. -/
theorem clac_build_lri_spec_witness :
    ("k" ∈ CLAC.names demoReg4)
    ∧ (∃! p : String × String, p ∈ CLAC.build_lri demoReg4 false ∧ p.2 = "k") :=
  ⟨by decide, (clac_build_lri_spec demoReg4).1 "k" (by decide)⟩

/-- Claim C5 counterexample: on a registry whose only (mutable) layer is
hierarchical and empty, setItem of the dotted key a.b raises NoConfigKey
instead of writing the pair, although a mutable layer is registered; the
claim's universally quantified write-and-read-back conclusion fails at
this input. -/
theorem clac_setitem_split_counterexample :
    CLAC.setItem [mSplitW] "a.b" (Value.str "v") = Except.error (PyErr.noConfigKey "a.b")
    ∧ mSplitW.mutable = true :=
  ⟨rfl, rfl⟩

/-- Claim C5 (amended): setItem targets the first mutable layer; the
ImmutableLayer error is raised exactly when no layer is mutable; and
when the targeted layer accepts the write (always for flat layers, for
hierarchical ones when the parent path exists), the registry is updated
at that layer only, a get scoped to that layer's name returns the
written value, and item lookup shadowed by an earlier layer that answers
the key is unaffected by the write. -/
theorem clac_setitem_routing (reg : Registry) (k : String) (v : Value) :
    (CLAC.setItem reg k v = Except.error (PyErr.immutableLayer "No mutable layers detected")
       ↔ ∀ L ∈ reg, L.mutable = false)
    ∧ (∀ pre Lm post Lm',
         reg = pre ++ Lm :: post →
         (∀ L ∈ pre, L.mutable = false) →
         Lm.mutable = true →
         Lm.name ≠ "" →
         (∀ L ∈ pre, L.name ≠ Lm.name) →
         Lm.setItem k v = Except.ok Lm' →
         CLAC.setItem reg k v = Except.ok (pre ++ Lm' :: post)
         ∧ CLAC.get (pre ++ Lm' :: post) k Value.pyNone (some Lm.name) none = Except.ok v
         ∧ ∀ w, k ≠ "" → CLAC.scanFetch pre k = Except.ok w →
             CLAC.getItem (pre ++ Lm' :: post) k = Except.ok w
             ∧ CLAC.getItem reg k = Except.ok w) := by
  refine ⟨CLAC.setItem_immutable_iff reg k v, ?_⟩
  rintro pre Lm post Lm' rfl hpre hm hname hfresh hset
  obtain ⟨hn, hmut, hds⟩ := DictLayer.setItem_fields Lm Lm' k v hset
  refine ⟨CLAC.setItem_ok_of pre post Lm Lm' k v hpre hm hset, ?_, ?_⟩
  · have hfind : findLayer (pre ++ Lm' :: post) Lm.name = some Lm' := by
      rw [findLayer_append pre (Lm' :: post) Lm.name hfresh]
      simp [findLayer, hn]
    exact CLAC.get_scoped _ k Value.pyNone Lm.name Lm' v hname hfind
      (DictLayer.getItem_setItem Lm Lm' k v hset)
  · intro w hk hw
    constructor
    · simp only [CLAC.getItem, if_neg hk]
      exact CLAC.scanFetch_append_ok pre (Lm' :: post) k w hw
    · simp only [CLAC.getItem, if_neg hk]
      exact CLAC.scanFetch_append_ok pre (Lm :: post) k w hw

/-- Witness for claim C5: one immutable layer binding k to A shadows a
mutable empty layer; the write lands in the mutable layer, the scoped
read sees it, and the unscoped read still answers A. -/
theorem clac_setitem_routing_witness :
    CLAC.setItem [alphaW, mW] "k" (Value.str "v") = Except.ok [alphaW, mW2]
    ∧ CLAC.get [alphaW, mW2] "k" Value.pyNone (some "m") none = Except.ok (Value.str "v")
    ∧ CLAC.getItem [alphaW, mW2] "k" = Except.ok (Value.str "A") := by
  have h := (clac_setitem_routing [alphaW, mW] "k" (Value.str "v")).2 [alphaW] mW [] mW2
    rfl
    (by intro L hL; rcases List.mem_singleton.1 hL with rfl; rfl)
    rfl
    (by decide)
    (by intro L hL; rcases List.mem_singleton.1 hL with rfl; decide)
    rfl
  exact ⟨h.1, h.2.1, (h.2.2 (Value.str "A") (by decide) rfl).1⟩

/-- Claim C6 counterexample: add_layers with a layer whose name is
already registered raises nothing and silently replaces the existing
layer; the old layer's keys are gone afterwards.  The default-failure
behaviour the claim describes does not exist in add_layers. -/
theorem clac_add_layers_silent_overwrite :
    CLAC.add_layers [dupA1] [dupA2] = [dupA2]
    ∧ CLAC.getItem (CLAC.add_layers [dupA1] [dupA2]) "x" = Except.error (PyErr.noConfigKey "x") :=
  ⟨rfl, rfl⟩

/-- Replacing by name keeps the name list of the registry unchanged. -/
theorem map_name_replace (L : DictLayer) (l : Registry) :
    (l.map (fun x => if x.name = L.name then L else x)).map DictLayer.name
      = l.map DictLayer.name := by
  induction l with
  | nil => rfl
  | cons P tl ih =>
    by_cases h : P.name = L.name <;> simp [h, ih]

/-- Registering one layer preserves uniqueness of registry names. -/
theorem nodup_addLayer (reg : Registry) (L : DictLayer)
    (h : (reg.map DictLayer.name).Nodup) :
    ((CLAC.addLayer reg L).map DictLayer.name).Nodup := by
  cases hf : findLayer reg L.name with
  | some old =>
    simp only [CLAC.addLayer, hf]
    rw [map_name_replace]
    exact h
  | none =>
    simp only [CLAC.addLayer, hf]
    have hnot : L.name ∉ reg.map DictLayer.name := by
      intro hc
      rcases List.mem_map.1 hc with ⟨x, hx, hxn⟩
      exact (findLayer_eq_none reg L.name).1 hf x hx hxn
    rw [List.map_append]
    simp [List.nodup_append, h, hnot]

/-- Registering any list of layers preserves uniqueness of registry
names. -/
theorem nodup_add_layers (ls : List DictLayer) :
    ∀ reg : Registry, (reg.map DictLayer.name).Nodup →
      ((CLAC.add_layers reg ls).map DictLayer.name).Nodup := by
  induction ls with
  | nil => intro reg h; exact h
  | cons l tl ih =>
    intro reg h
    exact ih (CLAC.addLayer reg l) (nodup_addLayer reg l h)

/-- Claim C6 (amended): layer names stay unique under add_layers, and
registering a layer under an already-registered name never fails:
add_layers silently replaces the existing entry in place; there is no
opt-in and no error path for duplicates. -/
theorem clac_add_layers_unique_names (reg : Registry) (ls : List DictLayer)
    (h : (reg.map DictLayer.name).Nodup) :
    ((CLAC.add_layers reg ls).map DictLayer.name).Nodup
    ∧ ∀ L old, findLayer reg L.name = some old →
        CLAC.addLayer reg L = reg.map (fun x => if x.name = L.name then L else x) := by
  refine ⟨nodup_add_layers ls reg h, ?_⟩
  intro L old hf
  simp only [CLAC.addLayer, hf]

/-- Witness for claim C6 at the duplicate registration of the name a. -/
theorem clac_add_layers_unique_names_witness :
    ((CLAC.add_layers [dupA1] [dupA2]).map DictLayer.name).Nodup :=
  (clac_add_layers_unique_names [dupA1] [dupA2] (by decide)).1

/-- Claim C7 counterexample: on a registry whose only layer is mutable,
hierarchical and empty, the dotted key a.b is absent from every layer
(the aggregated name set is empty), yet setdefault raises NoConfigKey
instead of storing and returning the default. -/
theorem clac_setdefault_split_counterexample :
    CLAC.setdefault [mSplitW] "a.b" (Value.str "v") = Except.error (PyErr.noConfigKey "a.b")
    ∧ mSplitW.mutable = true
    ∧ CLAC.names [mSplitW] = ∅ :=
  ⟨rfl, rfl, by decide⟩

/-- Claim C7 (amended): when the first mutable layer lacks the key (in
particular when the key is absent from every layer) and accepts the
write, setdefault stores and returns the default, and a second
setdefault with any other default returns the originally stored value
and leaves the registry unchanged. -/
theorem clac_setdefault_roundtrip (pre post : Registry) (Lm Lm' : DictLayer) (k : String)
    (v v2 : Value) (e : PyErr)
    (hpre : ∀ L ∈ pre, L.mutable = false)
    (hm : Lm.mutable = true)
    (habs : Lm.getItem k = Except.error e)
    (hlook : e.isLookupError = true)
    (hset : Lm.setItem k v = Except.ok Lm') :
    CLAC.setdefault (pre ++ Lm :: post) k v = Except.ok (v, pre ++ Lm' :: post)
    ∧ CLAC.setdefault (pre ++ Lm' :: post) k v2 = Except.ok (v, pre ++ Lm' :: post) := by
  obtain ⟨hn, hmut, hds⟩ := DictLayer.setItem_fields Lm Lm' k v hset
  have hm' : Lm'.mutable = true := by rw [hmut]; exact hm
  have hsd1 : Lm.setdefault k v = Except.ok (v, Lm') := by
    simp [DictLayer.setdefault, hm, habs, hlook, hset]
  have hget : Lm'.getItem k = Except.ok v := DictLayer.getItem_setItem Lm Lm' k v hset
  have hsd2 : Lm'.setdefault k v2 = Except.ok (v, Lm') := by
    simp [DictLayer.setdefault, hm', hget]
  exact ⟨CLAC.setdefault_ok_of pre post Lm Lm' k v v hpre hm hsd1,
    CLAC.setdefault_ok_of pre post Lm' Lm' k v2 v hpre hm' hsd2⟩

/-- Witness for claim C7: a single mutable flat layer; the first
setdefault stores v, the second returns v unchanged. -/
theorem clac_setdefault_roundtrip_witness :
    CLAC.setdefault [mW] "k" (Value.str "v") = Except.ok (Value.str "v", [mW2])
    ∧ CLAC.setdefault [mW2] "k" (Value.str "w") = Except.ok (Value.str "v", [mW2]) :=
  clac_setdefault_roundtrip [] [] mW mW2 "k" (Value.str "v") (Value.str "w") (PyErr.keyError "k")
    (by intro L hL; exact absurd hL (List.not_mem_nil L)) rfl rfl rfl rfl

/-- Claim C10: registering a layer whose name is already present
replaces the old layer in its original position in priority order, and
the relative order of every other layer is unchanged. -/
theorem clac_add_layers_replace_in_place (pre post : Registry) (old L : DictLayer)
    (hpre : ∀ x ∈ pre, x.name ≠ L.name)
    (hpost : ∀ x ∈ post, x.name ≠ L.name)
    (hold : old.name = L.name) :
    CLAC.add_layers (pre ++ old :: post) [L] = pre ++ L :: post := by
  show CLAC.addLayer (pre ++ old :: post) L = pre ++ L :: post
  exact CLAC.addLayer_replace pre post old L hpre hpost hold

/-- Witness for claim C10: the replacement layer named o stays in the
middle position between p and q. -/
theorem clac_add_layers_replace_in_place_witness :
    CLAC.add_layers [pW, oldW, qW] [newW] = [pW, newW, qW] :=
  clac_add_layers_replace_in_place [pW] [qW] oldW newW
    (by intro x hx; rcases List.mem_singleton.1 hx with rfl; decide)
    (by intro x hx; rcases List.mem_singleton.1 hx with rfl; decide)
    rfl
